import Mathlib

/-!
Shallow embedding of pkg/cmd/extension/http.go: five HTTP helper functions
(hasScript, downloadAsset, fetchLatestRelease, fetchReleaseFromTag,
fetchCommitSHA) over an injected HTTP client, plus models of their external
collaborators (api.HandleHTTPError, ghinstance.RESTPrefix as a parameter,
the encoding/json unmarshalling of the release types, and the file system
touched by downloadAsset).
-/

set_option autoImplicit false

namespace Extension

/-- Identifier of a repository (the ghrepo.Interface collaborator): host,
owner and name, used only to build request paths and URLs. -/
structure RepoIdent where
  host : String
  owner : String
  name : String
  deriving DecidableEq, Repr

/-- JSON values, as produced by parsing a response body with the external
encoding/json package. -/
inductive Json where
  | null
  | bool (b : Bool)
  | num (n : Int)
  | str (s : String)
  | arr (elems : List Json)
  | obj (fields : List (String × Json))

/-- Release asset record of the source. `Name` has no JSON tag, so its
effective JSON key is "Name"; `APIURL` carries the JSON tag "url". -/
structure releaseAsset where
  Name : String
  APIURL : String
  deriving DecidableEq, Repr

/-- Release record of the source. `Tag` carries the JSON tag "tag_name";
`Assets` has no JSON tag, so its effective JSON key is "Assets". -/
structure release where
  Tag : String
  Assets : List releaseAsset
  deriving DecidableEq, Repr

/-- An HTTP response as observed by this file: its status code, its raw body
bytes (read by ioutil.ReadAll, represented as a string), and the result of
parsing that body with the external encoding/json parser (`none` when the
body is not well-formed JSON). -/
structure Response where
  statusCode : Nat
  body : String
  bodyJson : Option Json

/-- An HTTP request as built by http.NewRequest plus the headers set on it. -/
structure Request where
  method : String
  url : String
  headers : List (String × String)
  deriving DecidableEq, Repr

/-- Outcome of one call to httpClient.Do: a response, or a transport
failure carrying an error message. -/
inductive DoResult where
  | ok (resp : Response)
  | fail (msg : String)

/-- The injected HTTP client: performs one request and returns its outcome. -/
abbrev HttpClient := Request → DoResult

/-- Error values this file can return. `httpError` models the structured API
error produced by the external helper api.HandleHTTPError; `releaseNotFoundErr`
and `commitNotFoundErr` model the two package-level sentinel error variables,
distinct constructors compared by identity; `decodeError` a json.Unmarshal
failure; `transport` a failed httpClient.Do; `fsError` a failed os.OpenFile. -/
inductive GoError where
  | httpError (status : Nat) (body : String)
  | transport (msg : String)
  | releaseNotFoundErr
  | commitNotFoundErr
  | decodeError
  | fsError (path : String)
  deriving DecidableEq, Repr

/-- Model of the external collaborator api.HandleHTTPError: translates a
response into a structured API error carrying the status code and the
response body (from which the upstream helper extracts any embedded
error message). -/
def HandleHTTPError (resp : Response) : GoError :=
  GoError.httpError resp.statusCode resp.body

/-- The request built by hasScript: a GET to
RESTPrefix(host) + "repos/o/n/contents/n". The REST prefix of a host is the
external collaborator ghinstance.RESTPrefix, passed in as `restBase`. -/
def hasScriptRequest (restBase : String → String) (repo : RepoIdent) : Request :=
  { method := "GET"
    url := restBase repo.host ++
      ("repos/" ++ repo.owner ++ "/" ++ repo.name ++ "/contents/" ++ repo.name)
    headers := [] }

/-- Model of hasScript: checks for a file named after the repository at the
repository root. Returns the Go pair (hs, err); hs stays false on every
error path. -/
def hasScript (restBase : String → String) (httpClient : HttpClient)
    (repo : RepoIdent) : Bool × Option GoError :=
  match httpClient (hasScriptRequest restBase repo) with
  | DoResult.fail m => (false, some (GoError.transport m))
  | DoResult.ok resp =>
    if resp.statusCode = 404 then (false, none)
    else if resp.statusCode > 299 then (false, some (HandleHTTPError resp))
    else (true, none)

/-- State of one file on disk: permission bits and contents. -/
structure FileState where
  mode : Nat
  contents : String
  deriving DecidableEq, Repr

/-- The file system, an association of paths to file states. -/
abbrev FileSystem := List (String × FileState)

/-- Looks up the state of the file at a path, if present. -/
def lookupFile (fs : FileSystem) (path : String) : Option FileState :=
  match fs with
  | [] => none
  | e :: rest => if e.1 = path then some e.2 else lookupFile rest path

/-- Replaces the state of the file at a path, or appends a new entry. -/
def setFile (fs : FileSystem) (path : String) (st : FileState) : FileSystem :=
  match fs with
  | [] => [(path, st)]
  | e :: rest => if e.1 = path then (path, st) :: rest else e :: setFile rest path st

/-- The request built by downloadAsset: a GET to the asset's own API URL with
an Accept header requesting the raw binary rather than JSON metadata. -/
def downloadAssetRequest (asset : releaseAsset) : Request :=
  { method := "GET"
    url := asset.APIURL
    headers := [("Accept", "application/octet-stream")] }

/-- Model of downloadAsset. `writable` models whether os.OpenFile with
O_CREATE, O_WRONLY and O_TRUNC at mode 0755 succeeds at a path. On success
a new destination entry is created with mode 0o755 (an existing entry keeps
its mode, since O_TRUNC does not change permissions) and its contents become
the full response body; io.Copy from an in-memory body is modelled as
succeeding. Returns the Go error result paired with the file system after
the call. -/
def downloadAsset (httpClient : HttpClient) (writable : String → Bool)
    (fs : FileSystem) (asset : releaseAsset) (destPath : String) :
    Option GoError × FileSystem :=
  match httpClient (downloadAssetRequest asset) with
  | DoResult.fail m => (some (GoError.transport m), fs)
  | DoResult.ok resp =>
    if resp.statusCode > 299 then (some (HandleHTTPError resp), fs)
    else if writable destPath then
      let mode :=
        match lookupFile fs destPath with
        | some st => st.mode
        | none => 0o755
      (none, setFile fs destPath { mode := mode, contents := resp.body })
    else (some (GoError.fsError destPath), fs)

/-- ASCII lower-casing of one character, as Go's case-insensitive field
matching folds names. -/
def lowerChar (c : Char) : Char :=
  if 65 ≤ c.toNat ∧ c.toNat ≤ 90 then Char.ofNat (c.toNat + 32) else c

/-- Go encoding/json field matching: an incoming object key selects a struct
field whose effective JSON name it equals, exactly or case-insensitively. -/
def keyMatches (fieldName key : String) : Bool :=
  fieldName.data.map lowerChar == key.data.map lowerChar

/-- One step of json.Unmarshal filling a releaseAsset from an object field:
a key matching "Name" or "url" with a string value assigns the field, a null
value leaves it unchanged, any other value there is a type error, and an
unmatched key is ignored. -/
def applyAssetField (a : releaseAsset) (k : String) (v : Json) : Option releaseAsset :=
  if keyMatches "Name" k then
    match v with
    | Json.str s => some { a with Name := s }
    | Json.null => some a
    | _ => none
  else if keyMatches "url" k then
    match v with
    | Json.str s => some { a with APIURL := s }
    | Json.null => some a
    | _ => none
  else some a

/-- Model of json.Unmarshal filling a releaseAsset from object fields, in
order; later duplicate keys overwrite earlier ones. -/
def unmarshalAssetFields (a : releaseAsset) :
    List (String × Json) → Option releaseAsset
  | [] => some a
  | (k, v) :: rest =>
    match applyAssetField a k v with
    | none => none
    | some a2 => unmarshalAssetFields a2 rest

/-- Model of json.Unmarshal of one JSON value into a releaseAsset: an object
fills the zero value field by field, null leaves the zero value, and any
other value is a type error. -/
def unmarshalAsset : Json → Option releaseAsset
  | Json.null => some { Name := "", APIURL := "" }
  | Json.obj fields => unmarshalAssetFields { Name := "", APIURL := "" } fields
  | _ => none

/-- Model of json.Unmarshal of a JSON array into a list of release assets,
element by element. -/
def unmarshalAssetList : List Json → Option (List releaseAsset)
  | [] => some []
  | j :: rest =>
    match unmarshalAsset j with
    | none => none
    | some a =>
      match unmarshalAssetList rest with
      | none => none
      | some items => some (a :: items)

/-- One step of json.Unmarshal filling a release from an object field: a key
matching "tag_name" must hold a string (or null), one matching "Assets" an
array of assets (or null); any other value there is a type error, and an
unmatched key is ignored. -/
def applyReleaseField (r : release) (k : String) : Json → Option release
  | Json.null => some r
  | Json.bool _ =>
    if keyMatches "tag_name" k then none
    else if keyMatches "Assets" k then none
    else some r
  | Json.num _ =>
    if keyMatches "tag_name" k then none
    else if keyMatches "Assets" k then none
    else some r
  | Json.str s =>
    if keyMatches "tag_name" k then some { r with Tag := s }
    else if keyMatches "Assets" k then none
    else some r
  | Json.arr elems =>
    if keyMatches "tag_name" k then none
    else if keyMatches "Assets" k then
      (unmarshalAssetList elems).map fun items => { r with Assets := items }
    else some r
  | Json.obj _ =>
    if keyMatches "tag_name" k then none
    else if keyMatches "Assets" k then none
    else some r

/-- Model of json.Unmarshal filling a release from object fields, in order;
later duplicate keys overwrite earlier ones. -/
def unmarshalReleaseFields (r : release) :
    List (String × Json) → Option release
  | [] => some r
  | (k, v) :: rest =>
    match applyReleaseField r k v with
    | none => none
    | some r2 => unmarshalReleaseFields r2 rest

/-- Model of json.Unmarshal of one JSON value into a release: an object fills
the zero value field by field, null leaves the zero value (empty tag, no
assets), and any other value is a type error. -/
def unmarshalRelease : Json → Option release
  | Json.null => some { Tag := "", Assets := [] }
  | Json.obj fields => unmarshalReleaseFields { Tag := "", Assets := [] } fields
  | _ => none

/-- Model of ioutil.ReadAll followed by json.Unmarshal into a release: a body
that is not well-formed JSON, or whose shape does not fit, is a decode
error (`none`). -/
def decodeReleaseBody (resp : Response) : Option release :=
  match resp.bodyJson with
  | none => none
  | some j => unmarshalRelease j

/-- The request built by fetchLatestRelease: a GET to
RESTPrefix(host) + "repos/o/n/releases/latest". -/
def latestReleaseRequest (restBase : String → String) (repo : RepoIdent) : Request :=
  { method := "GET"
    url := restBase repo.host ++
      ("repos/" ++ repo.owner ++ "/" ++ repo.name ++ "/releases/latest")
    headers := [] }

/-- Model of fetchLatestRelease: the Go pair (release pointer, error), with
`none` for the nil pointer. -/
def fetchLatestRelease (restBase : String → String) (httpClient : HttpClient)
    (baseRepo : RepoIdent) : Option release × Option GoError :=
  match httpClient (latestReleaseRequest restBase baseRepo) with
  | DoResult.fail m => (none, some (GoError.transport m))
  | DoResult.ok resp =>
    if resp.statusCode > 299 then (none, some (HandleHTTPError resp))
    else
      match decodeReleaseBody resp with
      | none => (none, some GoError.decodeError)
      | some r => (some r, none)

/-- The request built by fetchReleaseFromTag: a GET to
RESTPrefix(host) + "repos/o/n/releases/tags/t"; the source first joins owner
and name into a full repository name. -/
def releaseFromTagRequest (restBase : String → String) (repo : RepoIdent)
    (tagName : String) : Request :=
  { method := "GET"
    url := restBase repo.host ++
      ("repos/" ++ (repo.owner ++ "/" ++ repo.name) ++ "/releases/tags/" ++ tagName)
    headers := [] }

/-- Model of fetchReleaseFromTag: as fetchLatestRelease, but a 404 yields the
releaseNotFoundErr sentinel before the generic error translation. -/
def fetchReleaseFromTag (restBase : String → String) (httpClient : HttpClient)
    (baseRepo : RepoIdent) (tagName : String) : Option release × Option GoError :=
  match httpClient (releaseFromTagRequest restBase baseRepo tagName) with
  | DoResult.fail m => (none, some (GoError.transport m))
  | DoResult.ok resp =>
    if resp.statusCode = 404 then (none, some GoError.releaseNotFoundErr)
    else if resp.statusCode > 299 then (none, some (HandleHTTPError resp))
    else
      match decodeReleaseBody resp with
      | none => (none, some GoError.decodeError)
      | some r => (some r, none)

/-- The request built by fetchCommitSHA: a GET to
RESTPrefix(host) + "repos/o/n/commits/r" with an Accept header requesting a
plain-text SHA. -/
def commitSHARequest (restBase : String → String) (repo : RepoIdent)
    (targetRef : String) : Request :=
  { method := "GET"
    url := restBase repo.host ++
      ("repos/" ++ repo.owner ++ "/" ++ repo.name ++ "/commits/" ++ targetRef)
    headers := [("Accept", "application/vnd.github.VERSION.sha")] }

/-- Model of fetchCommitSHA: a 422 yields the commitNotFoundErr sentinel;
other statuses above 299 the translated API error; success returns the raw
response body unchanged. -/
def fetchCommitSHA (restBase : String → String) (httpClient : HttpClient)
    (baseRepo : RepoIdent) (targetRef : String) : String × Option GoError :=
  match httpClient (commitSHARequest restBase baseRepo targetRef) with
  | DoResult.fail m => ("", some (GoError.transport m))
  | DoResult.ok resp =>
    if resp.statusCode = 422 then ("", some GoError.commitNotFoundErr)
    else if resp.statusCode > 299 then ("", some (HandleHTTPError resp))
    else (resp.body, none)

/-- JSON encoding of one asset in the documented response shape: an object
with keys "Name" and "url". -/
def assetJson (a : releaseAsset) : Json :=
  Json.obj [("Name", Json.str a.Name), ("url", Json.str a.APIURL)]

/-- JSON body in the documented release shape: an object with key "tag_name"
holding the tag and key "Assets" holding the encoded asset list. -/
def releaseJson (t : String) (items : List releaseAsset) : Json :=
  Json.obj [("tag_name", Json.str t), ("Assets", Json.arr (items.map assetJson))]

/-- A concrete REST prefix function for witnesses. -/
def restBase0 : String → String := fun h => "https://" ++ h ++ "/api/v3/"

/-- A concrete repository identifier for witnesses. -/
def repo0 : RepoIdent := { host := "example.com", owner := "octo", name := "hello" }

/-- A concrete release asset for witnesses. -/
def asset0 : releaseAsset :=
  { Name := "hello-linux-amd64", APIURL := "https://example.com/assets/1" }

/-- A 404 response with a non-empty body. -/
def resp404 : Response := { statusCode := 404, body := "Not Found", bodyJson := none }

/-- A client answering every request with resp404. -/
def client404 : HttpClient := fun _ => DoResult.ok resp404

/-- A 200 response whose body is the empty JSON object. -/
def respEmpty : Response :=
  { statusCode := 200, body := "\x7b\x7d", bodyJson := some (Json.obj []) }

/-- A client answering every request with respEmpty. -/
def clientEmpty : HttpClient := fun _ => DoResult.ok respEmpty

/-- A 101 (Switching Protocols) response: a real final status Go's HTTP
client hands back to callers, neither 404 nor 2xx nor above 299. -/
def resp101 : Response := { statusCode := 101, body := "", bodyJson := none }

/-- A client answering every request with resp101. -/
def client101 : HttpClient := fun _ => DoResult.ok resp101

/-- A 500 response with a JSON error message body. -/
def resp500 : Response :=
  { statusCode := 500, body := "\x7b\"message\": \"oops\"\x7d", bodyJson := none }

/-- A client answering every request with resp500. -/
def client500 : HttpClient := fun _ => DoResult.ok resp500

/-- A 200 response whose body is a well-formed release object. -/
def respRel : Response :=
  { statusCode := 200
    body := "\x7b\"tag_name\": \"v1.0.0\", \"Assets\": [...]\x7d"
    bodyJson := some (releaseJson "v1.0.0" [asset0]) }

/-- A client answering every request with respRel. -/
def clientRel : HttpClient := fun _ => DoResult.ok respRel

/-- A 200 response whose body is not well-formed JSON. -/
def respBad : Response := { statusCode := 200, body := "not json", bodyJson := none }

/-- A client answering every request with respBad. -/
def clientBad : HttpClient := fun _ => DoResult.ok respBad

/-- A 422 response, as returned for an unresolvable ref. -/
def resp422 : Response :=
  { statusCode := 422, body := "\x7b\"message\": \"No commit found\"\x7d", bodyJson := none }

/-- A client answering every request with resp422. -/
def client422 : HttpClient := fun _ => DoResult.ok resp422

/-- A 200 response whose body is a plain-text SHA with a trailing newline,
to witness that not even whitespace is trimmed. -/
def respSha : Response :=
  { statusCode := 200, body := "0123abcd\n", bodyJson := none }

/-- A client answering every request with respSha. -/
def clientSha : HttpClient := fun _ => DoResult.ok respSha

/-- A 200 response carrying binary asset content. -/
def respBin : Response := { statusCode := 200, body := "BINARY", bodyJson := none }

/-- A client answering every request with respBin. -/
def clientBin : HttpClient := fun _ => DoResult.ok respBin

/-- A 101 response carrying content, for the download counterexamples. -/
def respBin101 : Response := { statusCode := 101, body := "DATA", bodyJson := none }

/-- A client answering every request with respBin101. -/
def clientBin101 : HttpClient := fun _ => DoResult.ok respBin101

/-- A file system already holding one unrelated file. -/
def fs0 : FileSystem := [("/tmp/keep", { mode := 420, contents := "old" })]

/-- Decoding the documented JSON encoding of an asset restores the asset. -/
theorem unmarshalAsset_assetJson (a : releaseAsset) :
    unmarshalAsset (assetJson a) = some a := rfl

/-- Decoding the documented JSON encoding of an asset list restores the
list, in order. -/
theorem unmarshalAssetList_map (items : List releaseAsset) :
    unmarshalAssetList (items.map assetJson) = some items := by
  induction items with
  | nil => rfl
  | cons a rest ih =>
    simp only [List.map_cons, unmarshalAssetList, unmarshalAsset_assetJson, ih]

/-- Decoding the documented JSON body of a release restores its tag and its
asset list, in order. -/
theorem unmarshalRelease_releaseJson (t : String) (items : List releaseAsset) :
    unmarshalRelease (releaseJson t items) = some { Tag := t, Assets := items } := by
  have h1 : keyMatches "tag_name" "tag_name" = true := by decide
  have h2 : keyMatches "tag_name" "Assets" = false := by decide
  have h3 : keyMatches "Assets" "Assets" = true := by decide
  simp only [unmarshalRelease, releaseJson, unmarshalReleaseFields,
    applyReleaseField, h1, h2, h3, if_true, if_false, Bool.false_eq_true,
    unmarshalAssetList_map, Option.map]

/-- Object fields none of whose keys match "tag_name" or "Assets" leave the
release being filled unchanged. -/
theorem unmarshalReleaseFields_no_match (r : release) (fields : List (String × Json))
    (h : ∀ kv ∈ fields, keyMatches "tag_name" kv.1 = false ∧
      keyMatches "Assets" kv.1 = false) :
    unmarshalReleaseFields r fields = some r := by
  induction fields with
  | nil => rfl
  | cons kv rest ih =>
    have hkv := h kv (List.mem_cons_self kv rest)
    have hrest : ∀ e ∈ rest, keyMatches "tag_name" e.1 = false ∧
        keyMatches "Assets" e.1 = false :=
      fun e he => h e (List.mem_cons_of_mem kv he)
    obtain ⟨hkv1, hkv2⟩ := hkv
    cases kv with
    | mk k v =>
      have h1 : keyMatches "tag_name" k = false := hkv1
      have h2 : keyMatches "Assets" k = false := hkv2
      have hstep : applyReleaseField r k v = some r := by
        cases v <;> simp [applyReleaseField, h1, h2]
      simp only [unmarshalReleaseFields, hstep, ih hrest]

/-- Appending strings is associative; used to compare the two ways the
source builds a request path. -/
theorem string_append_assoc (x y z : String) : x ++ y ++ z = x ++ (y ++ z) := by
  cases x with
  | mk dx =>
    cases y with
    | mk dy =>
      cases z with
      | mk dz => exact congrArg String.mk (List.append_assoc dx dy dz)

/-- C1: for every repository identifier, hasScript returns
(exists=false, nil error) when the HTTP response status is 404 regardless of
the response body, and (exists=true, nil error) when the status is any
2xx. -/
theorem hasScript_404_false_2xx_true (restBase : String → String)
    (httpClient : HttpClient) (repo : RepoIdent) (resp : Response)
    (hdo : httpClient (hasScriptRequest restBase repo) = DoResult.ok resp) :
    (resp.statusCode = 404 → hasScript restBase httpClient repo = (false, none)) ∧
    (200 ≤ resp.statusCode → resp.statusCode ≤ 299 →
      hasScript restBase httpClient repo = (true, none)) := by
  unfold hasScript
  rw [hdo]
  constructor
  · intro h404
    simp [h404]
  · intro hlo hhi
    have h1 : ¬ resp.statusCode = 404 := by omega
    have h2 : ¬ resp.statusCode > 299 := by omega
    simp [h1, h2]

/-- Witness for C1: a 404 response and a 200 response, at concrete inputs. -/
theorem hasScript_404_false_2xx_true_witness :
    hasScript restBase0 client404 repo0 = (false, none) ∧
    hasScript restBase0 clientEmpty repo0 = (true, none) :=
  ⟨(hasScript_404_false_2xx_true restBase0 client404 repo0 resp404 rfl).1 rfl,
   (hasScript_404_false_2xx_true restBase0 clientEmpty repo0 respEmpty rfl).2
     (by decide) (by decide)⟩

/-- C2 counterexample: a 101 (Switching Protocols) response is neither 404
nor 2xx, yet hasScript returns exists=true with nil error rather than a
translated API error, because the source only routes statuses above 299 to
the error translation. -/
theorem hasScript_101_succeeds :
    hasScript restBase0 client101 repo0 = (true, none) ∧
    resp101.statusCode ≠ 404 ∧
    ¬ (200 ≤ resp101.statusCode ∧ resp101.statusCode ≤ 299) :=
  ⟨rfl, by decide, by decide⟩

/-- C2 amended: for every response whose status is above 299 and not 404,
hasScript returns exists=false together with the translated API error for
that response (the 404 guard runs first, so a plain 404 still succeeds with
exists=false). -/
theorem hasScript_above299_error (restBase : String → String)
    (httpClient : HttpClient) (repo : RepoIdent) (resp : Response)
    (hdo : httpClient (hasScriptRequest restBase repo) = DoResult.ok resp)
    (hgt : resp.statusCode > 299) (h404 : resp.statusCode ≠ 404) :
    hasScript restBase httpClient repo = (false, some (HandleHTTPError resp)) := by
  unfold hasScript
  rw [hdo]
  simp [h404, hgt]

/-- Witness for the amended C2: a 500 response with a JSON message body. -/
theorem hasScript_above299_error_witness :
    hasScript restBase0 client500 repo0 = (false, some (HandleHTTPError resp500)) :=
  hasScript_above299_error restBase0 client500 repo0 resp500 rfl (by decide) (by decide)

/-- C3: fetchReleaseFromTag returns no release and exactly the
releaseNotFoundErr sentinel value on a 404 (a single fixed constructor,
distinct from every translated API error, so callers compare by identity),
and on a 200 response whose body is the documented release shape it returns
the release whose tag and ordered assets match the body. -/
theorem fetchReleaseFromTag_notFound_and_ok (restBase : String → String)
    (httpClient : HttpClient) (repo : RepoIdent) (tagName : String) (resp : Response)
    (hdo : httpClient (releaseFromTagRequest restBase repo tagName) = DoResult.ok resp) :
    (resp.statusCode = 404 →
      fetchReleaseFromTag restBase httpClient repo tagName =
        (none, some GoError.releaseNotFoundErr)) ∧
    (∀ t items, resp.statusCode = 200 → resp.bodyJson = some (releaseJson t items) →
      fetchReleaseFromTag restBase httpClient repo tagName =
        (some { Tag := t, Assets := items }, none)) ∧
    (∀ s b, GoError.releaseNotFoundErr ≠ GoError.httpError s b) := by
  refine ⟨?_, ?_, by simp⟩
  · intro h404
    unfold fetchReleaseFromTag
    rw [hdo]
    simp [h404]
  · intro t items h200 hbody
    unfold fetchReleaseFromTag
    rw [hdo]
    have h1 : ¬ resp.statusCode = 404 := by omega
    have h2 : ¬ resp.statusCode > 299 := by omega
    simp [h1, h2, decodeReleaseBody, hbody, unmarshalRelease_releaseJson]

/-- Witness for C3: a 404 response and a 200 release body, at concrete
inputs. -/
theorem fetchReleaseFromTag_notFound_and_ok_witness :
    fetchReleaseFromTag restBase0 client404 repo0 "v1.0.0" =
      (none, some GoError.releaseNotFoundErr) ∧
    fetchReleaseFromTag restBase0 clientRel repo0 "v1.0.0" =
      (some { Tag := "v1.0.0", Assets := [asset0] }, none) :=
  ⟨(fetchReleaseFromTag_notFound_and_ok restBase0 client404 repo0 "v1.0.0"
      resp404 rfl).1 rfl,
   (fetchReleaseFromTag_notFound_and_ok restBase0 clientRel repo0 "v1.0.0"
      respRel rfl).2.1 "v1.0.0" [asset0] rfl rfl⟩

/-- C4: fetchCommitSHA returns the empty string and exactly the
commitNotFoundErr sentinel value on a 422, and on a 200 returns the raw
response body as the SHA, byte for byte with nothing trimmed, and nil
error. -/
theorem fetchCommitSHA_422_and_200 (restBase : String → String)
    (httpClient : HttpClient) (repo : RepoIdent) (targetRef : String) (resp : Response)
    (hdo : httpClient (commitSHARequest restBase repo targetRef) = DoResult.ok resp) :
    (resp.statusCode = 422 →
      fetchCommitSHA restBase httpClient repo targetRef =
        ("", some GoError.commitNotFoundErr)) ∧
    (resp.statusCode = 200 →
      fetchCommitSHA restBase httpClient repo targetRef = (resp.body, none)) := by
  unfold fetchCommitSHA
  rw [hdo]
  constructor
  · intro h422
    simp [h422]
  · intro h200
    have h1 : ¬ resp.statusCode = 422 := by omega
    have h2 : ¬ resp.statusCode > 299 := by omega
    simp [h1, h2]

/-- Witness for C4: a 422 response, and a 200 response whose body carries a
trailing newline that is preserved in the result. -/
theorem fetchCommitSHA_422_and_200_witness :
    fetchCommitSHA restBase0 client422 repo0 "main" =
      ("", some GoError.commitNotFoundErr) ∧
    fetchCommitSHA restBase0 clientSha repo0 "main" = ("0123abcd\n", none) :=
  ⟨(fetchCommitSHA_422_and_200 restBase0 client422 repo0 "main" resp422 rfl).1 rfl,
   (fetchCommitSHA_422_and_200 restBase0 clientSha repo0 "main" respSha rfl).2 rfl⟩

/-- C5: each of the five operations issues a GET whose URL is exactly the
REST prefix of the host concatenated with the section-6 path for that
operation, the asset download targeting the asset's own API URL. -/
theorem issued_request_urls (restBase : String → String) (repo : RepoIdent)
    (tagName targetRef : String) (asset : releaseAsset) :
    (hasScriptRequest restBase repo).method = "GET" ∧
    (hasScriptRequest restBase repo).url = restBase repo.host ++
      ("repos/" ++ repo.owner ++ "/" ++ repo.name ++ "/contents/" ++ repo.name) ∧
    (latestReleaseRequest restBase repo).method = "GET" ∧
    (latestReleaseRequest restBase repo).url = restBase repo.host ++
      ("repos/" ++ repo.owner ++ "/" ++ repo.name ++ "/releases/latest") ∧
    (releaseFromTagRequest restBase repo tagName).method = "GET" ∧
    (releaseFromTagRequest restBase repo tagName).url = restBase repo.host ++
      ("repos/" ++ repo.owner ++ "/" ++ repo.name ++ "/releases/tags/" ++ tagName) ∧
    (commitSHARequest restBase repo targetRef).method = "GET" ∧
    (commitSHARequest restBase repo targetRef).url = restBase repo.host ++
      ("repos/" ++ repo.owner ++ "/" ++ repo.name ++ "/commits/" ++ targetRef) ∧
    (downloadAssetRequest asset).method = "GET" ∧
    (downloadAssetRequest asset).url = asset.APIURL := by
  refine ⟨rfl, rfl, rfl, rfl, rfl, ?_, rfl, rfl, rfl, rfl⟩
  show restBase repo.host ++
      ("repos/" ++ (repo.owner ++ "/" ++ repo.name) ++ "/releases/tags/" ++ tagName) =
    restBase repo.host ++
      ("repos/" ++ repo.owner ++ "/" ++ repo.name ++ "/releases/tags/" ++ tagName)
  simp only [string_append_assoc]

/-- C6 counterexample: a 101 response is not 2xx, yet downloadAsset returns
no translated API error: it writes the destination file and returns nil,
because only statuses above 299 are routed to the error translation. -/
theorem downloadAsset_101_succeeds :
    downloadAsset clientBin101 (fun _ => true) [] asset0 "/tmp/ext-bin" =
      (none, [("/tmp/ext-bin", { mode := 0o755, contents := "DATA" })]) := rfl

/-- C6 amended: downloadAsset sends a GET to the asset's API URL with an
Accept octet-stream header; on a response with status above 299 it returns
the translated API error and leaves the file system unchanged; on a response
with status at most 299 whose destination can be opened it returns nil error
and the destination holds exactly the response body, a fresh file being
created with permissions 0755 while a pre-existing file keeps its mode. -/
theorem downloadAsset_header_error_success (httpClient : HttpClient)
    (writable : String → Bool) (fs : FileSystem) (asset : releaseAsset)
    (destPath : String) (resp : Response)
    (hdo : httpClient (downloadAssetRequest asset) = DoResult.ok resp) :
    (downloadAssetRequest asset).method = "GET" ∧
    (downloadAssetRequest asset).url = asset.APIURL ∧
    (downloadAssetRequest asset).headers = [("Accept", "application/octet-stream")] ∧
    (resp.statusCode > 299 →
      downloadAsset httpClient writable fs asset destPath =
        (some (HandleHTTPError resp), fs)) ∧
    (resp.statusCode ≤ 299 → writable destPath = true →
      (lookupFile fs destPath = none →
        downloadAsset httpClient writable fs asset destPath =
          (none, setFile fs destPath { mode := 0o755, contents := resp.body })) ∧
      (∀ st, lookupFile fs destPath = some st →
        downloadAsset httpClient writable fs asset destPath =
          (none, setFile fs destPath { mode := st.mode, contents := resp.body }))) := by
  refine ⟨rfl, rfl, rfl, ?_, ?_⟩
  · intro hgt
    unfold downloadAsset
    rw [hdo]
    simp [hgt]
  · intro hok hw
    have h2 : ¬ resp.statusCode > 299 := by omega
    constructor
    · intro hnone
      unfold downloadAsset
      rw [hdo]
      simp [h2, hw, hnone]
    · intro st hst
      unfold downloadAsset
      rw [hdo]
      simp [h2, hw, hst]

/-- Witness for the amended C6: a 200 response written to a fresh path. -/
theorem downloadAsset_header_error_success_witness :
    downloadAsset clientBin (fun _ => true) [] asset0 "/tmp/hello" =
      (none, [("/tmp/hello", { mode := 0o755, contents := "BINARY" })]) :=
  ((downloadAsset_header_error_success clientBin (fun _ => true) [] asset0
    "/tmp/hello" respBin rfl).2.2.2.2 (by decide) rfl).1 rfl

/-- C7: when the destination cannot be created, downloadAsset returns the
filesystem error and the file system is unchanged: no partial write
occurs. -/
theorem downloadAsset_create_fail_no_write (httpClient : HttpClient)
    (writable : String → Bool) (fs : FileSystem) (asset : releaseAsset)
    (destPath : String) (resp : Response)
    (hdo : httpClient (downloadAssetRequest asset) = DoResult.ok resp)
    (hok : resp.statusCode ≤ 299) (hw : writable destPath = false) :
    downloadAsset httpClient writable fs asset destPath =
      (some (GoError.fsError destPath), fs) := by
  unfold downloadAsset
  rw [hdo]
  have h2 : ¬ resp.statusCode > 299 := by omega
  simp [h2, hw]

/-- Witness for C7: an unwritable destination leaves a non-empty file system
untouched. -/
theorem downloadAsset_create_fail_no_write_witness :
    downloadAsset clientBin (fun _ => false) fs0 asset0 "/bad/path" =
      (some (GoError.fsError "/bad/path"), fs0) :=
  downloadAsset_create_fail_no_write clientBin (fun _ => false) fs0 asset0
    "/bad/path" respBin rfl (by decide) rfl

/-- C8: on a 2xx response whose body is the documented release JSON object,
fetchLatestRelease returns the release whose tag and ordered assets (display
name and API URL) match the body; on a 2xx response whose body is not
well-formed JSON it returns no release and a decode error. -/
theorem fetchLatestRelease_decode (restBase : String → String)
    (httpClient : HttpClient) (repo : RepoIdent) (resp : Response)
    (hdo : httpClient (latestReleaseRequest restBase repo) = DoResult.ok resp)
    (hlo : 200 ≤ resp.statusCode) (hhi : resp.statusCode ≤ 299) :
    (∀ t items, resp.bodyJson = some (releaseJson t items) →
      fetchLatestRelease restBase httpClient repo =
        (some { Tag := t, Assets := items }, none)) ∧
    (resp.bodyJson = none →
      fetchLatestRelease restBase httpClient repo = (none, some GoError.decodeError)) := by
  have h2 : ¬ resp.statusCode > 299 := by omega
  constructor
  · intro t items hbody
    unfold fetchLatestRelease
    rw [hdo]
    simp [h2, decodeReleaseBody, hbody, unmarshalRelease_releaseJson]
  · intro hbody
    unfold fetchLatestRelease
    rw [hdo]
    simp [h2, decodeReleaseBody, hbody]

/-- Witness for C8: a 200 release body and a 200 body that is not
well-formed JSON. -/
theorem fetchLatestRelease_decode_witness :
    fetchLatestRelease restBase0 clientRel repo0 =
      (some { Tag := "v1.0.0", Assets := [asset0] }, none) ∧
    fetchLatestRelease restBase0 clientBad repo0 =
      (none, some GoError.decodeError) :=
  ⟨(fetchLatestRelease_decode restBase0 clientRel repo0 respRel rfl
      (by decide) (by decide)).1 "v1.0.0" [asset0] rfl,
   (fetchLatestRelease_decode restBase0 clientBad repo0 respBad rfl
      (by decide) (by decide)).2 rfl⟩

/-- C9 counterexample: on a 101 (non-2xx) response the destination file is
created and written, because only statuses above 299 are guarded: the file
system is not left unchanged on every non-2xx response. -/
theorem downloadAsset_101_creates_file :
    lookupFile [] "/tmp/other" = none ∧
    (downloadAsset clientBin101 (fun _ => true) [] asset0 "/tmp/other").2 =
      [("/tmp/other", { mode := 0o755, contents := "DATA" })] :=
  ⟨rfl, rfl⟩

/-- C9 amended: whenever the response status is above 299 (every case in
which the translated API error is produced), the status is inspected before
the destination is opened, downloadAsset returns the translated API error,
and the file system is unchanged. -/
theorem downloadAsset_error_fs_unchanged (httpClient : HttpClient)
    (writable : String → Bool) (fs : FileSystem) (asset : releaseAsset)
    (destPath : String) (resp : Response)
    (hdo : httpClient (downloadAssetRequest asset) = DoResult.ok resp)
    (hgt : resp.statusCode > 299) :
    (downloadAsset httpClient writable fs asset destPath).2 = fs ∧
    (downloadAsset httpClient writable fs asset destPath).1 =
      some (HandleHTTPError resp) := by
  unfold downloadAsset
  rw [hdo]
  simp [hgt]

/-- Witness for the amended C9: a 404 download response leaves a non-empty
file system untouched. -/
theorem downloadAsset_error_fs_unchanged_witness :
    (downloadAsset client404 (fun _ => true) fs0 asset0 "/tmp/new").2 = fs0 ∧
    (downloadAsset client404 (fun _ => true) fs0 asset0 "/tmp/new").1 =
      some (HandleHTTPError resp404) :=
  downloadAsset_error_fs_unchanged client404 (fun _ => true) fs0 asset0
    "/tmp/new" resp404 rfl (by decide)

/-- C10: a 2xx response whose body is well-formed JSON, an object none of
whose keys matches tag_name or Assets (for example the empty object), makes
both fetchLatestRelease and fetchReleaseFromTag succeed with nil error and
the zero release, empty tag and no assets: no validation rejects the
missing fields. -/
theorem fetch_release_missing_fields (restBase : String → String)
    (httpClient : HttpClient) (repo : RepoIdent) (tagName : String)
    (resp : Response) (fields : List (String × Json))
    (hdo1 : httpClient (latestReleaseRequest restBase repo) = DoResult.ok resp)
    (hdo2 : httpClient (releaseFromTagRequest restBase repo tagName) = DoResult.ok resp)
    (hlo : 200 ≤ resp.statusCode) (hhi : resp.statusCode ≤ 299)
    (hbody : resp.bodyJson = some (Json.obj fields))
    (hfields : ∀ kv ∈ fields, keyMatches "tag_name" kv.1 = false ∧
      keyMatches "Assets" kv.1 = false) :
    fetchLatestRelease restBase httpClient repo =
      (some { Tag := "", Assets := [] }, none) ∧
    fetchReleaseFromTag restBase httpClient repo tagName =
      (some { Tag := "", Assets := [] }, none) := by
  have h404 : ¬ resp.statusCode = 404 := by omega
  have h2 : ¬ resp.statusCode > 299 := by omega
  have hdec : decodeReleaseBody resp = some { Tag := "", Assets := [] } := by
    simp [decodeReleaseBody, hbody, unmarshalRelease,
      unmarshalReleaseFields_no_match _ fields hfields]
  constructor
  · unfold fetchLatestRelease
    rw [hdo1]
    simp [h2, hdec]
  · unfold fetchReleaseFromTag
    rw [hdo2]
    simp [h404, h2, hdec]

/-- Witness for C10: the empty JSON object body on a 200 response. -/
theorem fetch_release_missing_fields_witness :
    fetchLatestRelease restBase0 clientEmpty repo0 =
      (some { Tag := "", Assets := [] }, none) ∧
    fetchReleaseFromTag restBase0 clientEmpty repo0 "v9" =
      (some { Tag := "", Assets := [] }, none) :=
  fetch_release_missing_fields restBase0 clientEmpty repo0 "v9" respEmpty []
    rfl rfl (by decide) (by decide) rfl (by simp)

end Extension
